import Mathlib

/-!
Verification development for the gotunnel repository.

This file gives a shallow embedding, in Lean, of the parts of gotunnel that
the verified properties speak about:

* the route table and reverse-proxy dispatcher of `internal/proxy`
  (`Manager.AddRoute`, `Manager.RemoveRoute`, `Manager.proxyDirector`,
  `Manager.proxyErrorHandler`);
* the certificate provider of `internal/cert` (`CertManager.EnsureCert`,
  self-signed variant);
* the tunnel manager of `internal/tunnel` (`Manager.StartTunnel`,
  `Manager.StopTunnel`, `Manager.Stop`, `Manager.StopAll`,
  `Tunnel.stop`, the hosts-file helpers), in its two variants present in
  the sources (the dedicated-listener variant of `tunnel.go` and the
  proxy-aware variant with input validation, `startTunnelInternal`).

Go strings are modelled by Lean `String`, Go maps by association lists with
first-binding-wins lookup, the filesystem and system registries by explicit
state records, and the outcomes of fallible external calls (certificate
generation, socket binds, mDNS registration, graceful server shutdown) by an
explicit environment of booleans.  Locks are erased: every modelled operation
runs under the manager's mutex in the source, so operations are modelled as
atomic state transformers.
-/

namespace GoTunnel

/-! ### Go string helpers

Translations of the `strings` package functions used by the sources.
They are defined on the character data of a `String` so that suffix
reasoning can reuse list lemmas. -/

/-- Go `strings.HasSuffix s suf`: whether `suf` is a suffix of `s`. -/
def hasSuffixStr (s suf : String) : Bool :=
  decide (suf.data <:+ s.data)

/-- Go `strings.TrimSuffix s suf`: remove one trailing occurrence of `suf`
from `s` when present, otherwise return `s` unchanged. -/
def trimSuffixStr (s suf : String) : String :=
  if hasSuffixStr s suf then
    String.mk (s.data.take (s.data.length - suf.data.length))
  else s

/-- Go `strings.Contains hay needle`: whether `needle` occurs inside `hay`. -/
def containsStr (hay needle : String) : Bool :=
  decide (needle.data <:+: hay.data)

theorem trimSuffixStr_append (s suf : String) (h : hasSuffixStr s suf = true) :
    trimSuffixStr s suf ++ suf = s := by
  have hs : suf.data <:+ s.data := of_decide_eq_true h
  rw [trimSuffixStr, if_pos h]
  apply String.ext
  rw [String.data_append]
  exact List.suffix_iff_eq_append.mp hs

theorem trimSuffixStr_of_not_suffix (s suf : String)
    (h : hasSuffixStr s suf = false) : trimSuffixStr s suf = s := by
  rw [trimSuffixStr, if_neg (by simp [h])]

/-! ### Association lists as Go maps

Go map reads, writes and deletes, modelled on association lists whose lookup
returns the first binding.  `insertKV` erases older bindings so that a map
value is represented by at most one pair, matching Go's overwrite semantics. -/

/-- Go map read `m[k]`. -/
def lookupKV {α : Type} (m : List (String × α)) (k : String) : Option α :=
  match m with
  | [] => none
  | (k', v) :: rest => if k' = k then some v else lookupKV rest k

/-- Go map delete `delete(m, k)`. -/
def eraseKV {α : Type} (m : List (String × α)) (k : String) :
    List (String × α) :=
  m.filter (fun p => p.1 ≠ k)

/-- Go map write `m[k] = v`. -/
def insertKV {α : Type} (m : List (String × α)) (k : String) (v : α) :
    List (String × α) :=
  (k, v) :: eraseKV m k

theorem lookupKV_eraseKV_self {α : Type} (m : List (String × α)) (k : String) :
    lookupKV (eraseKV m k) k = none := by
  induction m with
  | nil => rfl
  | cons p rest ih =>
    by_cases h : p.1 = k
    · simpa [eraseKV, List.filter, h] using ih
    · simpa [eraseKV, List.filter, h, lookupKV] using ih

theorem lookupKV_eraseKV_other {α : Type} (m : List (String × α))
    (k k' : String) (h : k' ≠ k) :
    lookupKV (eraseKV m k) k' = lookupKV m k' := by
  induction m with
  | nil => rfl
  | cons p rest ih =>
    by_cases hp : p.1 = k
    · have hne : ¬ (p.1 = k') := by rw [hp]; exact fun he => h he.symm
      rw [show eraseKV (p :: rest) k = eraseKV rest k by
            simp [eraseKV, List.filter, hp]]
      rw [ih]
      simp [lookupKV, hne]
    · rw [show eraseKV (p :: rest) k = p :: eraseKV rest k by
            simp [eraseKV, List.filter, hp]]
      simp [lookupKV, ih]

theorem lookupKV_insertKV_self {α : Type} (m : List (String × α))
    (k : String) (v : α) : lookupKV (insertKV m k v) k = some v := by
  simp [insertKV, lookupKV]

theorem lookupKV_insertKV_other {α : Type} (m : List (String × α))
    (k k' : String) (v : α) (h : k' ≠ k) :
    lookupKV (insertKV m k v) k' = lookupKV m k' := by
  simp only [insertKV, lookupKV]
  rw [if_neg (fun he => h he.symm)]
  exact lookupKV_eraseKV_other m k k' h

theorem eraseKV_of_lookupKV_none {α : Type} (m : List (String × α))
    (k : String) (h : lookupKV m k = none) : eraseKV m k = m := by
  induction m with
  | nil => rfl
  | cons p rest ih =>
    by_cases hp : p.1 = k
    · simp [lookupKV, hp] at h
    · simp only [lookupKV, hp, if_neg] at h
      simp [eraseKV, List.filter, hp] at *
      exact ih h

theorem eraseKV_idem {α : Type} (m : List (String × α)) (k : String) :
    eraseKV (eraseKV m k) k = eraseKV m k :=
  eraseKV_of_lookupKV_none _ _ (lookupKV_eraseKV_self m k)

theorem eraseKV_comm {α : Type} (m : List (String × α)) (k k' : String) :
    eraseKV (eraseKV m k) k' = eraseKV (eraseKV m k') k := by
  simp [eraseKV, List.filter_filter]
  congr 1
  funext p
  exact Bool.and_comm _ _

/-! ### Route table and reverse-proxy dispatcher

Translation of `internal/proxy` (the `proxy.Manager` implementation found in
the sources): `Route`, `AddRoute`, `RemoveRoute`, `ListRoutes`, and the
routing behaviour of the shared listener, given by the composition of
`proxyDirector` (which resolves the stripped Host header against the route
table, or marks the request unroutable by clearing its URL) with
`proxyErrorHandler` (which renders the 404 page for unroutable requests). -/

/-- The `proxy.Route` record: a proxy route mapping. -/
structure Route where
  Domain : String
  TargetHost : String
  TargetPort : Int
  HTTPS : Bool
deriving DecidableEq

/-- The route table `proxy.Manager.routes`: domain to route mapping. -/
abbrev RouteTable := List (String × Route)

/-- `proxy.Manager.AddRoute`: normalize the domain by trimming a `.local`
suffix when present, then store the same route under both the suffixed and
the unsuffixed key.  The second component is the Go `error` result, which the
source always returns as `nil`.  (The source guards the `TrimSuffix` call
with `HasSuffix`; `trimSuffixStr` is a no-op in the unguarded case, so the
unconditional call is equivalent.) -/
def AddRoute (routes : RouteTable) (route : Route) :
    RouteTable × Option String :=
  let domain := trimSuffixStr route.Domain ".local"
  let r1 := insertKV routes (domain ++ ".local") route
  let r2 := insertKV r1 domain route
  (r2, none)

/-- `proxy.Manager.RemoveRoute`: delete the given key and its other
normalized variation (trimmed when the argument carries the `.local` suffix,
suffixed otherwise).  The Go `error` result is always `nil`. -/
def RemoveRoute (routes : RouteTable) (domain : String) :
    RouteTable × Option String :=
  let r1 := eraseKV routes domain
  let r2 :=
    if hasSuffixStr domain ".local" then
      eraseKV r1 (trimSuffixStr domain ".local")
    else
      eraseKV r1 (domain ++ ".local")
  (r2, none)

/-- `proxy.Manager.ListRoutes`: a copy of the route table. -/
def ListRoutes (routes : RouteTable) : RouteTable := routes

/-- `strings.Split(req.Host, ":")[0]` as used by both `proxyDirector` and
`proxyErrorHandler`: the Host header up to (excluding) the first colon. -/
def stripPort (host : String) : String :=
  String.mk (host.data.takeWhile (fun c => c ≠ ':'))

/-- Outcome of the shared listener on one inbound request: either the request
is rewritten and forwarded to a backend target, or it is answered directly
with a status code and an HTML body. -/
inductive ProxyResponse where
  | forwarded (scheme targetHost fwdFor fwdProto fwdHost : String)
  | answered (status : Nat) (body : String)
deriving DecidableEq

/-- The `<li>` lines that `proxyErrorHandler` prints, one per route-table
key (the source iterates the `routes` map). -/
def routesHtml : RouteTable → String
  | [] => ""
  | p :: rest => "<li>" ++ p.1 ++ "</li>" ++ routesHtml rest

/-- The HTML body written by `proxyErrorHandler` for a request with no
matching route, naming the unmatched host and enumerating the known routes. -/
def notFoundBody (routes : RouteTable) (host : String) : String :=
  "<!DOCTYPE html>\n<html>\n<head><title>Tunnel Not Found</title></head>\n<body>\n<h1>🚇 gotunnel - Route Not Found</h1>\n<p>No tunnel configured for <strong>"
    ++ host
    ++ "</strong></p>\n<p>Available routes:</p>\n<ul>"
    ++ routesHtml routes
    ++ "</ul>\n<p><em>Configure a tunnel with: <code>gotunnel start [name] --port [port]</code></em></p>\n</body>\n</html>"

/-- The shared-listener dispatch pipeline: `proxyDirector` strips the port
from the Host header and looks the host up in the route table; on a hit it
rewrites the request to the route's target (scheme per `route.HTTPS`) and
sets the forwarding headers; on a miss it clears the request URL, which makes
the transport fail and `proxyErrorHandler` answer with status 404 and the
`notFoundBody` page instead of forwarding. -/
def dispatch (routes : RouteTable) (hostHeader clientIP : String) :
    ProxyResponse :=
  let host := stripPort hostHeader
  match lookupKV routes host with
  | none => .answered 404 (notFoundBody routes host)
  | some route =>
      let scheme := if route.HTTPS then "https" else "http"
      .forwarded scheme (route.TargetHost ++ ":" ++ toString route.TargetPort)
        clientIP scheme host

/-- The second normalized variation that `RemoveRoute` deletes besides its
argument: the trimmed form when the argument carries the `.local` suffix,
the suffixed form otherwise. -/
def otherLocalForm (d : String) : String :=
  if hasSuffixStr d ".local" then trimSuffixStr d ".local" else d ++ ".local"

theorem RemoveRoute_eq (routes : RouteTable) (d : String) :
    RemoveRoute routes d =
      (eraseKV (eraseKV routes d) (otherLocalForm d), none) := by
  rw [RemoveRoute, otherLocalForm]
  by_cases h : hasSuffixStr d ".local"
  · simp [h]
  · simp [h]

theorem ne_self_append_local (s : String) : s ≠ s ++ ".local" := by
  intro he
  have hl := congrArg (fun x => x.data.length) he
  simp only [String.data_append] at hl
  simp at hl

theorem containsStr_middle (a needle b : String) :
    containsStr (a ++ needle ++ b) needle = true := by
  apply decide_eq_true
  refine ⟨a.data, b.data, ?_⟩
  simp [String.data_append]

theorem containsStr_mono (a mid b needle : String)
    (h : containsStr mid needle = true) :
    containsStr (a ++ mid ++ b) needle = true := by
  apply decide_eq_true
  have h' : needle.data <:+: mid.data := of_decide_eq_true h
  refine h'.trans ?_
  simp only [String.data_append]
  exact List.infix_append a.data mid.data b.data

theorem routesHtml_contains (routes : RouteTable) (p : String × Route)
    (hp : p ∈ routes) : containsStr (routesHtml routes) p.1 = true := by
  induction routes with
  | nil => cases hp
  | cons q rest ih =>
    cases hp with
    | head =>
        have : routesHtml (p :: rest) =
            "<li>" ++ p.1 ++ ("</li>" ++ routesHtml rest) := by
          simp [routesHtml, String.append_assoc]
        rw [this]
        exact containsStr_middle "<li>" p.1 ("</li>" ++ routesHtml rest)
    | tail _ hmem =>
        apply decide_eq_true
        have h1 : p.1.data <:+: (routesHtml rest).data :=
          of_decide_eq_true (ih hmem)
        refine h1.trans ?_
        refine ⟨("<li>" ++ q.1 ++ "</li>").data, [], ?_⟩
        simp [routesHtml, String.data_append]

theorem ne_otherLocalForm (d : String) : d ≠ otherLocalForm d := by
  rw [otherLocalForm]
  by_cases h : hasSuffixStr d ".local"
  · rw [if_pos h]
    intro he
    have h2 : trimSuffixStr d ".local" ++ ".local"
        = trimSuffixStr d ".local" := by
      rw [trimSuffixStr_append d ".local" h]; exact he
    exact ne_self_append_local (trimSuffixStr d ".local") h2.symm
  · rw [if_neg h]
    exact ne_self_append_local d

theorem lookupKV_RemoveRoute_self (m : RouteTable) (d : String) :
    lookupKV (RemoveRoute m d).1 d = none ∧
    lookupKV (RemoveRoute m d).1 (otherLocalForm d) = none := by
  rw [RemoveRoute_eq]
  constructor
  · rw [lookupKV_eraseKV_other _ _ _ (ne_otherLocalForm d)]
    exact lookupKV_eraseKV_self _ _
  · exact lookupKV_eraseKV_self _ _

/-- C7: `AddRoute` for a domain inserts the same route under both the
`.local`-suffixed and the unsuffixed key, so a lookup with either form
(in particular with the route's own domain, whichever form it has) resolves
to that route; `RemoveRoute` applied to any argument with the same
normalized base — passed with or without the `.local` suffix — deletes both
forms again. -/
theorem claim_C7_route_normalization (routes : RouteTable) (r : Route)
    (d : String)
    (hd : trimSuffixStr d ".local" = trimSuffixStr r.Domain ".local") :
    lookupKV (AddRoute routes r).1 (trimSuffixStr r.Domain ".local")
        = some r ∧
    lookupKV (AddRoute routes r).1 (trimSuffixStr r.Domain ".local"
        ++ ".local") = some r ∧
    lookupKV (AddRoute routes r).1 r.Domain = some r ∧
    lookupKV (RemoveRoute (AddRoute routes r).1 d).1
        (trimSuffixStr r.Domain ".local") = none ∧
    lookupKV (RemoveRoute (AddRoute routes r).1 d).1
        (trimSuffixStr r.Domain ".local" ++ ".local") = none ∧
    lookupKV (RemoveRoute (AddRoute routes r).1 d).1 r.Domain = none := by
  have hbne : trimSuffixStr r.Domain ".local"
      ≠ trimSuffixStr r.Domain ".local" ++ ".local" :=
    ne_self_append_local _
  have hA1 : lookupKV (AddRoute routes r).1 (trimSuffixStr r.Domain ".local")
      = some r := lookupKV_insertKV_self _ _ _
  have hA2 : lookupKV (AddRoute routes r).1
      (trimSuffixStr r.Domain ".local" ++ ".local") = some r := by
    rw [AddRoute]
    rw [lookupKV_insertKV_other _ _ _ _ (fun he => hbne he.symm)]
    exact lookupKV_insertKV_self _ _ _
  have hA3 : lookupKV (AddRoute routes r).1 r.Domain = some r := by
    by_cases hs : hasSuffixStr r.Domain ".local"
    · rw [show r.Domain = trimSuffixStr r.Domain ".local" ++ ".local" from
        (trimSuffixStr_append r.Domain ".local" hs).symm]
      exact hA2
    · rw [show r.Domain = trimSuffixStr r.Domain ".local" from
        (trimSuffixStr_of_not_suffix r.Domain ".local"
          (Bool.eq_false_iff.mpr hs)).symm]
      exact hA1
  have hR := lookupKV_RemoveRoute_self (AddRoute routes r).1 d
  have hother : otherLocalForm d
      = (if hasSuffixStr d ".local" then trimSuffixStr r.Domain ".local"
         else trimSuffixStr r.Domain ".local" ++ ".local") := by
    rw [otherLocalForm]
    by_cases hs : hasSuffixStr d ".local"
    · rw [if_pos hs, if_pos hs, hd]
    · rw [if_neg hs, if_neg hs,
        show d = trimSuffixStr r.Domain ".local" from
          (trimSuffixStr_of_not_suffix d ".local"
            (Bool.eq_false_iff.mpr hs)).symm.trans hd]
  have hdval : d = (if hasSuffixStr d ".local"
      then trimSuffixStr r.Domain ".local" ++ ".local"
      else trimSuffixStr r.Domain ".local") := by
    by_cases hs : hasSuffixStr d ".local"
    · rw [if_pos hs, ← hd]
      exact (trimSuffixStr_append d ".local" hs).symm
    · rw [if_neg hs, ← hd]
      exact (trimSuffixStr_of_not_suffix d ".local"
        (Bool.eq_false_iff.mpr hs)).symm
  have hRb : lookupKV (RemoveRoute (AddRoute routes r).1 d).1
      (trimSuffixStr r.Domain ".local") = none := by
    by_cases hs : hasSuffixStr d ".local"
    · rw [← show otherLocalForm d = trimSuffixStr r.Domain ".local" by
        rw [hother, if_pos hs]]
      exact hR.2
    · rw [← show d = trimSuffixStr r.Domain ".local" by
        rw [hdval, if_neg hs]]
      exact hR.1
  have hRbl : lookupKV (RemoveRoute (AddRoute routes r).1 d).1
      (trimSuffixStr r.Domain ".local" ++ ".local") = none := by
    by_cases hs : hasSuffixStr d ".local"
    · rw [← show d = trimSuffixStr r.Domain ".local" ++ ".local" by
        rw [hdval, if_pos hs]]
      exact hR.1
    · rw [← show otherLocalForm d
          = trimSuffixStr r.Domain ".local" ++ ".local" by
        rw [hother, if_neg hs]]
      exact hR.2
  refine ⟨hA1, hA2, hA3, hRb, hRbl, ?_⟩
  by_cases hs : hasSuffixStr r.Domain ".local"
  · rw [show r.Domain = trimSuffixStr r.Domain ".local" ++ ".local" from
      (trimSuffixStr_append r.Domain ".local" hs).symm]
    exact hRbl
  · rw [show r.Domain = trimSuffixStr r.Domain ".local" from
      (trimSuffixStr_of_not_suffix r.Domain ".local"
        (Bool.eq_false_iff.mpr hs)).symm]
    exact hRb

/-- Witness for C7 at the route `test.local -> 127.0.0.1:3000`, removed via
the unsuffixed form `test`. -/
theorem claim_C7_route_normalization_witness :
    lookupKV (AddRoute []
        (⟨"test.local", "127.0.0.1", 3000, false⟩ : Route)).1 "test"
      = some ⟨"test.local", "127.0.0.1", 3000, false⟩ ∧
    lookupKV (AddRoute []
        (⟨"test.local", "127.0.0.1", 3000, false⟩ : Route)).1 "test.local"
      = some ⟨"test.local", "127.0.0.1", 3000, false⟩ ∧
    lookupKV (RemoveRoute (AddRoute []
        (⟨"test.local", "127.0.0.1", 3000, false⟩ : Route)).1 "test").1
      "test" = none ∧
    lookupKV (RemoveRoute (AddRoute []
        (⟨"test.local", "127.0.0.1", 3000, false⟩ : Route)).1 "test").1
      "test.local" = none := by
  have h := claim_C7_route_normalization []
    (⟨"test.local", "127.0.0.1", 3000, false⟩ : Route) "test" (by decide)
  have he : trimSuffixStr "test.local" ".local" = "test" := by decide
  rw [he] at h
  exact ⟨h.1, h.2.1, h.2.2.2.1, h.2.2.2.2.1⟩

/-- C8: in shared mode, a request whose port-stripped Host header matches no
route is not forwarded: the dispatcher answers it directly with status 404
and an HTML body that contains the unmatched host name and every known route
key. -/
theorem claim_C8_no_route_response (routes : RouteTable)
    (hostHeader clientIP : String)
    (h : lookupKV routes (stripPort hostHeader) = none) :
    dispatch routes hostHeader clientIP =
      .answered 404 (notFoundBody routes (stripPort hostHeader)) ∧
    containsStr (notFoundBody routes (stripPort hostHeader))
      (stripPort hostHeader) = true ∧
    ∀ p ∈ routes,
      containsStr (notFoundBody routes (stripPort hostHeader)) p.1
        = true := by
  refine ⟨by rw [dispatch]; simp [h], ?_, ?_⟩
  · rw [show notFoundBody routes (stripPort hostHeader) =
      "<!DOCTYPE html>\n<html>\n<head><title>Tunnel Not Found</title></head>\n<body>\n<h1>🚇 gotunnel - Route Not Found</h1>\n<p>No tunnel configured for <strong>"
        ++ stripPort hostHeader
        ++ ("</strong></p>\n<p>Available routes:</p>\n<ul>"
            ++ routesHtml routes
            ++ "</ul>\n<p><em>Configure a tunnel with: <code>gotunnel start [name] --port [port]</code></em></p>\n</body>\n</html>")
      by rw [notFoundBody]; simp [String.append_assoc]]
    exact containsStr_middle _ _ _
  · intro p hp
    rw [show notFoundBody routes (stripPort hostHeader) =
      ("<!DOCTYPE html>\n<html>\n<head><title>Tunnel Not Found</title></head>\n<body>\n<h1>🚇 gotunnel - Route Not Found</h1>\n<p>No tunnel configured for <strong>"
        ++ stripPort hostHeader
        ++ "</strong></p>\n<p>Available routes:</p>\n<ul>")
        ++ routesHtml routes
        ++ "</ul>\n<p><em>Configure a tunnel with: <code>gotunnel start [name] --port [port]</code></em></p>\n</body>\n</html>"
      by rw [notFoundBody]]
    exact containsStr_mono _ _ _ _ (routesHtml_contains routes p hp)

/-- Witness for C8: one registered route, one request for an unknown host. -/
theorem claim_C8_no_route_response_witness :
    dispatch [("app.local",
        (⟨"app.local", "127.0.0.1", 3000, false⟩ : Route))]
      "unknown.local:8080" "192.168.1.9" =
      .answered 404 (notFoundBody [("app.local",
        (⟨"app.local", "127.0.0.1", 3000, false⟩ : Route))]
        (stripPort "unknown.local:8080")) ∧
    containsStr (notFoundBody [("app.local",
        (⟨"app.local", "127.0.0.1", 3000, false⟩ : Route))]
        (stripPort "unknown.local:8080"))
      (stripPort "unknown.local:8080") = true ∧
    ∀ p ∈ [("app.local",
        (⟨"app.local", "127.0.0.1", 3000, false⟩ : Route))],
      containsStr (notFoundBody [("app.local",
          (⟨"app.local", "127.0.0.1", 3000, false⟩ : Route))]
          (stripPort "unknown.local:8080")) p.1 = true :=
  claim_C8_no_route_response _ "unknown.local:8080" "192.168.1.9" (by decide)

/-- C10: `AddRoute` and `RemoveRoute` always return a `nil` error;
`RemoveRoute` of a domain with no registered route (under either normalized
form) leaves the route table unchanged, and removing twice equals removing
once. -/
theorem claim_C10_remove_total (m : RouteTable) (r : Route) (d : String)
    (h1 : lookupKV m d = none)
    (h2 : lookupKV m (otherLocalForm d) = none) :
    (AddRoute m r).2 = none ∧
    (RemoveRoute m d).2 = none ∧
    (RemoveRoute m d).1 = m ∧
    (RemoveRoute (RemoveRoute m d).1 d).1 = (RemoveRoute m d).1 := by
  refine ⟨rfl, by rw [RemoveRoute_eq], ?_, ?_⟩
  · rw [RemoveRoute_eq]
    show eraseKV (eraseKV m d) (otherLocalForm d) = m
    rw [eraseKV_of_lookupKV_none m d h1,
      eraseKV_of_lookupKV_none m (otherLocalForm d) h2]
  · have hself := lookupKV_RemoveRoute_self m d
    rw [RemoveRoute_eq (RemoveRoute m d).1 d]
    show eraseKV (eraseKV (RemoveRoute m d).1 d) (otherLocalForm d)
      = (RemoveRoute m d).1
    rw [eraseKV_of_lookupKV_none _ d hself.1]
    rw [eraseKV_of_lookupKV_none _ (otherLocalForm d) hself.2]

/-- Witness for C10 at a table holding `x.local` and a removal of the
unregistered domain `absent`. -/
theorem claim_C10_remove_total_witness :
    (RemoveRoute [("x.local",
        (⟨"x.local", "127.0.0.1", 4000, true⟩ : Route))] "absent").2
      = none ∧
    (RemoveRoute [("x.local",
        (⟨"x.local", "127.0.0.1", 4000, true⟩ : Route))] "absent").1
      = [("x.local", (⟨"x.local", "127.0.0.1", 4000, true⟩ : Route))] := by
  have h := claim_C10_remove_total
    [("x.local", (⟨"x.local", "127.0.0.1", 4000, true⟩ : Route))]
    (⟨"x.local", "127.0.0.1", 4000, true⟩ : Route) "absent"
    (by decide) (by decide)
  exact ⟨h.2.1, h.2.2.1⟩

/-! ### Certificate provider

Translation of the self-signed `CertManager.EnsureCert` variant of
`internal/cert` (the one whose behaviour §4.1 of the design describes:
2048-bit RSA key, self-signed certificate, one-year validity, persisted as a
`.crt`/`.key` pair under the certificates directory).

The filesystem is an association list from paths to file records; a file
record carries whether it parses as a valid PEM pair member and an abstract
byte identity.  The randomness of `rsa.GenerateKey`/`x509.CreateCertificate`
is supplied as the `fresh` argument: each generation produces the bytes
passed in, so that distinct generations are distinguishable. -/

/-- Content of one on-disk certificate or key file: whether it parses, and
an abstract identity for its bytes. -/
structure FileData where
  parses : Bool
  bytes : Nat
deriving DecidableEq

/-- The certificate store: path to file content. -/
abbrev CertFS := List (String × FileData)

/-- The `cert.CertManager` record. -/
structure CertManager where
  certsDir : String
deriving DecidableEq

/-- `filepath.Join(cm.certsDir, domain+".crt")`. -/
def certPathOf (cm : CertManager) (domain : String) : String :=
  cm.certsDir ++ "/" ++ domain ++ ".crt"

/-- `filepath.Join(cm.certsDir, domain+".key")`. -/
def keyPathOf (cm : CertManager) (domain : String) : String :=
  cm.certsDir ++ "/" ++ domain ++ ".key"

/-- `tls.LoadX509KeyPair(certPath, keyPath)`: succeeds, returning the
certificate bytes, exactly when both files exist and parse. -/
def loadX509KeyPair (fs : CertFS) (certPath keyPath : String) : Option Nat :=
  match lookupKV fs certPath, lookupKV fs keyPath with
  | some cd, some kd =>
      if cd.parses && kd.parses then some cd.bytes else none
  | _, _ => none

/-- The generation tail of `EnsureCert`: generate a key pair and self-signed
certificate (bytes `fresh`), write the `.crt` and `.key` files, then load
and return the pair.  Directory creation (`os.MkdirAll`) has no observable
effect in this filesystem model. -/
def generateAndLoad (cm : CertManager) (fresh : Nat) (fs : CertFS)
    (domain : String) : Except String (Nat × CertFS) :=
  let fs1 := insertKV fs (certPathOf cm domain) ⟨true, fresh⟩
  let fs2 := insertKV fs1 (keyPathOf cm domain) ⟨true, fresh⟩
  match loadX509KeyPair fs2 (certPathOf cm domain) (keyPathOf cm domain) with
  | some b => .ok (b, fs2)
  | none => .error "failed to load generated cert"

/-- `CertManager.EnsureCert` (self-signed variant): when `os.Stat` finds the
certificate file, try `tls.LoadX509KeyPair` and return the loaded pair on
success; on stat miss or load failure fall through to generation, which
overwrites both files. -/
def EnsureCert (cm : CertManager) (fresh : Nat) (fs : CertFS)
    (domain : String) : Except String (Nat × CertFS) :=
  if (lookupKV fs (certPathOf cm domain)).isSome then
    match loadX509KeyPair fs (certPathOf cm domain)
        (keyPathOf cm domain) with
    | some b => .ok (b, fs)
    | none => generateAndLoad cm fresh fs domain
  else
    generateAndLoad cm fresh fs domain

theorem certPathOf_ne_keyPathOf (cm : CertManager) (domain : String) :
    certPathOf cm domain ≠ keyPathOf cm domain := by
  intro he
  have hd := congrArg String.data he
  rw [show certPathOf cm domain
      = (cm.certsDir ++ "/" ++ domain) ++ ".crt" by rw [certPathOf],
    show keyPathOf cm domain
      = (cm.certsDir ++ "/" ++ domain) ++ ".key" by rw [keyPathOf]] at hd
  rw [String.data_append, String.data_append] at hd
  have := List.append_cancel_left hd
  simp at this

theorem generateAndLoad_ok (cm : CertManager) (fresh : Nat) (fs : CertFS)
    (domain : String) :
    generateAndLoad cm fresh fs domain =
      .ok (fresh,
        insertKV (insertKV fs (certPathOf cm domain) ⟨true, fresh⟩)
          (keyPathOf cm domain) ⟨true, fresh⟩) := by
  rw [generateAndLoad]
  have hcert : lookupKV
      (insertKV (insertKV fs (certPathOf cm domain) ⟨true, fresh⟩)
        (keyPathOf cm domain) ⟨true, fresh⟩)
      (certPathOf cm domain) = some ⟨true, fresh⟩ := by
    rw [lookupKV_insertKV_other _ _ _ _ (certPathOf_ne_keyPathOf cm domain)]
    exact lookupKV_insertKV_self _ _ _
  have hkey : lookupKV
      (insertKV (insertKV fs (certPathOf cm domain) ⟨true, fresh⟩)
        (keyPathOf cm domain) ⟨true, fresh⟩)
      (keyPathOf cm domain) = some ⟨true, fresh⟩ :=
    lookupKV_insertKV_self _ _ _
  simp [loadX509KeyPair, hcert, hkey]

theorem EnsureCert_load_some (cm : CertManager) (fresh : Nat) (fs : CertFS)
    (domain : String) (b : Nat)
    (hstat : (lookupKV fs (certPathOf cm domain)).isSome = true)
    (hload : loadX509KeyPair fs (certPathOf cm domain) (keyPathOf cm domain)
      = some b) :
    EnsureCert cm fresh fs domain = .ok (b, fs) := by
  rw [EnsureCert, if_pos hstat, hload]

theorem EnsureCert_regen (cm : CertManager) (fresh : Nat) (fs : CertFS)
    (domain : String)
    (h : loadX509KeyPair fs (certPathOf cm domain) (keyPathOf cm domain)
      = none) :
    EnsureCert cm fresh fs domain = generateAndLoad cm fresh fs domain := by
  rw [EnsureCert]
  by_cases hstat : (lookupKV fs (certPathOf cm domain)).isSome
  · rw [if_pos hstat, h]
  · rw [if_neg hstat]

theorem EnsureCert_after_generate (cm : CertManager) (f1 f2 : Nat)
    (fs : CertFS) (domain : String) :
    EnsureCert cm f2
      (insertKV (insertKV fs (certPathOf cm domain) ⟨true, f1⟩)
        (keyPathOf cm domain) ⟨true, f1⟩) domain
    = .ok (f1,
        insertKV (insertKV fs (certPathOf cm domain) ⟨true, f1⟩)
          (keyPathOf cm domain) ⟨true, f1⟩) := by
  have hcert : lookupKV
      (insertKV (insertKV fs (certPathOf cm domain) ⟨true, f1⟩)
        (keyPathOf cm domain) ⟨true, f1⟩)
      (certPathOf cm domain) = some ⟨true, f1⟩ := by
    rw [lookupKV_insertKV_other _ _ _ _ (certPathOf_ne_keyPathOf cm domain)]
    exact lookupKV_insertKV_self _ _ _
  have hkey : lookupKV
      (insertKV (insertKV fs (certPathOf cm domain) ⟨true, f1⟩)
        (keyPathOf cm domain) ⟨true, f1⟩)
      (keyPathOf cm domain) = some ⟨true, f1⟩ :=
    lookupKV_insertKV_self _ _ _
  apply EnsureCert_load_some
  · rw [hcert]; rfl
  · simp [loadX509KeyPair, hcert, hkey]

/-- C5: a second `EnsureCert` call for the same domain, run on the state the
first call produced (so the written pair still parses), returns exactly the
certificate bytes of the first call and leaves the store untouched: it loads
the existing on-disk pair instead of regenerating. -/
theorem claim_C5_certificate_reuse (cm : CertManager) (f1 f2 : Nat)
    (fs : CertFS) (domain : String) (c : Nat) (fs' : CertFS)
    (h : EnsureCert cm f1 fs domain = .ok (c, fs')) :
    EnsureCert cm f2 fs' domain = .ok (c, fs') := by
  by_cases hstat : (lookupKV fs (certPathOf cm domain)).isSome
  · cases hload : loadX509KeyPair fs (certPathOf cm domain)
        (keyPathOf cm domain) with
    | some b =>
        rw [EnsureCert_load_some cm f1 fs domain b hstat hload] at h
        injection h with hpair
        have hb1 : b = c := congrArg Prod.fst hpair
        have hb2 : fs = fs' := congrArg Prod.snd hpair
        subst hb1
        subst hb2
        exact EnsureCert_load_some cm f2 fs domain b hstat hload
    | none =>
        rw [EnsureCert_regen cm f1 fs domain hload,
          generateAndLoad_ok] at h
        injection h with hpair
        have hb1 : f1 = c := congrArg Prod.fst hpair
        have hb2 : insertKV (insertKV fs (certPathOf cm domain) ⟨true, f1⟩)
            (keyPathOf cm domain) ⟨true, f1⟩ = fs' :=
          congrArg Prod.snd hpair
        subst hb1
        subst hb2
        exact EnsureCert_after_generate cm f1 f2 fs domain
  · have hload : loadX509KeyPair fs (certPathOf cm domain)
        (keyPathOf cm domain) = none := by
      rw [loadX509KeyPair]
      cases hc : lookupKV fs (certPathOf cm domain) with
      | none => rfl
      | some cd => rw [hc] at hstat; simp at hstat
    rw [EnsureCert_regen cm f1 fs domain hload, generateAndLoad_ok] at h
    injection h with hpair
    have hb1 : f1 = c := congrArg Prod.fst hpair
    have hb2 : insertKV (insertKV fs (certPathOf cm domain) ⟨true, f1⟩)
        (keyPathOf cm domain) ⟨true, f1⟩ = fs' :=
      congrArg Prod.snd hpair
    subst hb1
    subst hb2
    exact EnsureCert_after_generate cm f1 f2 fs domain

/-- Witness for C5: a first call on an empty store generates, a second call
reuses the same bytes. -/
theorem claim_C5_certificate_reuse_witness :
    EnsureCert ⟨"certs"⟩ 1 [] "x.local"
      = .ok (1, [("certs/x.local.key", ⟨true, 1⟩),
                 ("certs/x.local.crt", ⟨true, 1⟩)]) ∧
    EnsureCert ⟨"certs"⟩ 2
        [("certs/x.local.key", ⟨true, 1⟩), ("certs/x.local.crt", ⟨true, 1⟩)]
        "x.local"
      = .ok (1, [("certs/x.local.key", ⟨true, 1⟩),
                 ("certs/x.local.crt", ⟨true, 1⟩)]) := by
  have h1 : EnsureCert ⟨"certs"⟩ 1 [] "x.local"
      = .ok (1, [("certs/x.local.key", ⟨true, 1⟩),
                 ("certs/x.local.crt", ⟨true, 1⟩)]) := by rfl
  exact ⟨h1, claim_C5_certificate_reuse ⟨"certs"⟩ 1 2 [] "x.local" 1 _ h1⟩

/-- C6 (behaviour of the code at the failing input): when the on-disk pair
for a domain exists but fails to parse, `EnsureCert` does not return an
error — it silently regenerates, overwriting both files and returning the
fresh bytes.  This contradicts the repository's own test
`TestInvalidCertificateHandling`, which requires a load error for corrupt
files, and the specified hard-error contract. -/
theorem claim_C6_corrupt_regenerated :
    EnsureCert ⟨"certs"⟩ 5
      [("certs/x.local.crt", ⟨false, 7⟩), ("certs/x.local.key", ⟨false, 7⟩)]
      "x.local"
      = .ok (5, [("certs/x.local.key", ⟨true, 5⟩),
                 ("certs/x.local.crt", ⟨true, 5⟩)]) := by rfl

/-! ### Tunnel manager

Translation of `internal/tunnel`.  Two variants appear in the sources and
both are embedded: the dedicated-listener variant of `tunnel.go`
(`StartTunnel` / `StopTunnel` / `Stop` / `StopAll` / `Tunnel.stop`), and the
proxy-aware variant with input validation (`startTunnelInternal` and its
`startTunnel` of part_017).

The system state (`World`) carries the hosts file as the list of lines the
Go `bufio.Scanner` produces, other files (the hosts backup) as a path-keyed
store, the set of mDNS-registered domains, the set of ports with a live
accepting listener, and the list of domains the certificate provider was
asked to ensure.  Fallible externals are driven by an `Env` of outcomes:
certificate provisioning, socket binds (which also fail when the port is
already bound), mDNS registration, and graceful server shutdown.
Hosts-file reads are modelled as succeeding.  `http.Server.Shutdown` closes
its tracked listener first in every case, and returns an error only when the
caller's context expires; a subsequent explicit `Close` of that listener
therefore fails with `ErrClosed` (a first `Close` of a never-served listener
succeeds).  `Manager.StopAll` holds the non-reentrant `m.mu` and calls
`Manager.StopTunnel`, which acquires the same mutex, so on a non-empty
collection `StopAll` deadlocks before any observable effect; the embedding
makes this explicit with an outcome type. -/

/-- Outcomes of the fallible external calls during one manager operation. -/
structure Env where
  certOk : Bool
  listenOk : Bool
  mdnsOk : Bool
  shutdownOk : Bool
deriving DecidableEq

/-- System state outside the manager. -/
structure World where
  hosts : List String
  files : List (String × List String)
  mdns : List String
  openPorts : List Int
  certEnsured : List String
deriving DecidableEq

/-- The `tunnel.Tunnel` record of tunnel.go (the `server`/`listener` fields
are modelled by whether they are non-nil; `done` and `TargetIP` have no
observable effect on the verified properties). -/
structure GTunnel where
  Port : Int
  HTTPSPort : Int
  Domain : String
  HTTPS : Bool
  serverSet : Bool
  listenerSet : Bool
deriving DecidableEq

/-- The `tunnel.Manager` record of tunnel.go: the tunnel collection and the
hosts backup file path (set at construction, as in the variant that
initializes it to a temp-dir path). -/
structure TManager where
  tunnels : List (String × GTunnel)
  hostsBackup : String
deriving DecidableEq

/-- The port a tunnel's listener binds: `HTTPSPort` for TLS, else the
backend `Port` (tunnel.go binds the plain listener on `t.Port`). -/
def listenPortOf (t : GTunnel) : Int :=
  if t.HTTPS then t.HTTPSPort else t.Port

/-- The `.local` normalization applied by `StartTunnel`. -/
def normalizeLocal (domain0 : String) : String :=
  if hasSuffixStr domain0 ".local" then domain0 else domain0 ++ ".local"

/-- `updateHostsFile`: scan the hosts lines; if some line contains the
domain, do nothing; otherwise append the entry (the Go code appends
`"\n127.0.0.1\t<domain>\n"` to the raw content, which at line granularity is
one blank separator line plus the entry line). -/
def updateHostsFile (domain : String) (w : World) : World :=
  if w.hosts.any (fun line => containsStr line domain) then w
  else { w with hosts := w.hosts ++ ["", "127.0.0.1\t" ++ domain] }

/-- `removeFromHostsFile`: keep only the lines not containing the domain. -/
def removeFromHostsFile (domain : String) (w : World) : World :=
  { w with hosts := w.hosts.filter (fun line => !(containsStr line domain)) }

/-- Close the listener bound to a port. -/
def closePort (p : Int) (w : World) : World :=
  { w with openPorts := w.openPorts.filter (fun q => q ≠ p) }

/-- `dnsserver.RegisterDomain` effect: record the domain (map overwrite). -/
def registerDomain (d : String) (w : World) : World :=
  { w with mdns := d :: w.mdns.filter (fun x => x ≠ d) }

/-- `dnsserver.UnregisterDomain` effect: drop the domain; the source returns
`nil` even for unknown domains. -/
def unregisterDomain (d : String) (w : World) : World :=
  { w with mdns := w.mdns.filter (fun x => x ≠ d) }

/-- `Manager.backupHostsFile`: write the current hosts content to the backup
path; the write fails when the path is empty (`os.WriteFile("")`). -/
def backupHostsFile (path : String) (w : World) : Option String × World :=
  if path = "" then (some "failed to create hosts backup", w)
  else (none, { w with files := insertKV w.files path w.hosts })

/-- `Manager.restoreHostsFile`: a no-op when no backup path was set;
otherwise read the backup (error if missing), write it over the hosts file
and remove the backup file (removal failure is only logged). -/
def restoreHostsFile (path : String) (w : World) : Option String × World :=
  if path = "" then (none, w)
  else
    match lookupKV w.files path with
    | none => (some "failed to read hosts backup", w)
    | some content =>
        (none, { w with hosts := content, files := eraseKV w.files path })

/-- `Tunnel.stop` (tunnel.go lines 211–233).  When the server is running,
`server.Shutdown` closes the tracked listener before anything else, and
errors only when the caller's context expires first
(`env.shutdownOk = false`); either way the listener is closed.  On a
successful shutdown, the following explicit `t.listener.Close()` finds the
listener already closed and returns `ErrClosed`, so for a tunnel with both
server and listener set the function always returns before reaching
`removeFromHostsFile` — the hosts entry is never removed on that path.
Only a tunnel whose server was never started reaches the hosts-entry
removal (its explicit `Close` is then the first close and succeeds). -/
def tunnelStop (env : Env) (t : GTunnel) (w : World) :
    Option String × GTunnel × World :=
  if t.serverSet then
    if !env.shutdownOk then
      (some "error shutting down server", t, closePort (listenPortOf t) w)
    else if t.listenerSet then
      (some "error closing listener: use of closed network connection",
        t, closePort (listenPortOf t) w)
    else
      (none, t,
        removeFromHostsFile t.Domain (closePort (listenPortOf t) w))
  else if t.listenerSet then
    (none, { t with listenerSet := false },
      removeFromHostsFile t.Domain (closePort (listenPortOf t) w))
  else
    (none, t, removeFromHostsFile t.Domain w)

/-- `Manager.startTunnel` (tunnel.go): update the hosts file, create the
server and reverse proxy, then bind the listener (TLS on `HTTPSPort`, plain
on `Port`); the bind fails when the port is taken or the environment injects
a failure, leaving the hosts entry in place. -/
def managerStartTunnel (env : Env) (t : GTunnel) (w : World) :
    Option String × GTunnel × World :=
  let w1 := updateHostsFile t.Domain w
  let t1 := { t with serverSet := true }
  if w1.openPorts.contains (listenPortOf t) || !env.listenOk then
    (some "failed to create listener", t1, w1)
  else
    (none, { t1 with listenerSet := true },
      { w1 with openPorts := listenPortOf t :: w1.openPorts })

/-- `Manager.StartTunnel` (tunnel.go): duplicate check on the raw domain
argument (before the `.local` normalization), normalization, certificate
provisioning for HTTPS, `startTunnel`, mDNS registration — on whose failure
the just-started tunnel is stopped again — insertion under the normalized
domain, and the hosts backup when the collection reached size one. -/
def StartTunnel (env : Env) (m : TManager) (w : World) (port : Int)
    (domain0 : String) (https : Bool) (httpsPort : Int) :
    Option String × TManager × World :=
  if (lookupKV m.tunnels domain0).isSome then
    (some ("tunnel for domain " ++ domain0 ++ " already exists"), m, w)
  else
    let domain := normalizeLocal domain0
    let t : GTunnel := ⟨port, httpsPort, domain, https, false, false⟩
    if https && !env.certOk then
      (some "failed to ensure certificate", m, w)
    else
      let w0 := if https then
          { w with certEnsured := domain :: w.certEnsured } else w
      match managerStartTunnel env t w0 with
      | (some e, _, w1) => (some ("failed to start tunnel: " ++ e), m, w1)
      | (none, t1, w1) =>
          if !env.mdnsOk then
            match tunnelStop env t1 w1 with
            | (some se, _, w2) =>
                (some ("failed to stop tunnel after mDNS registration failed: "
                  ++ se), m, w2)
            | (none, _, w2) =>
                (some "failed to register domain with mDNS", m, w2)
          else
            let w2 := registerDomain domain w1
            let m1 : TManager :=
              { m with tunnels := insertKV m.tunnels domain t1 }
            if m1.tunnels.length == 1 then
              match backupHostsFile m1.hostsBackup w2 with
              | (some e, w3) =>
                  (some ("failed to backup hosts file: " ++ e), m1, w3)
              | (none, w3) => (none, m1, w3)
            else (none, m1, w2)

/-- `Manager.StopTunnel` (tunnel.go): not-found check, `Tunnel.stop` —
whose failure is returned at once, abandoning the remaining steps — then
mDNS unregistration and removal from the collection. -/
def StopTunnel (env : Env) (m : TManager) (w : World) (domain : String) :
    Option String × TManager × World :=
  match lookupKV m.tunnels domain with
  | none =>
      (some ("tunnel for domain " ++ domain ++ " does not exist"), m, w)
  | some t =>
      match tunnelStop env t w with
      | (some e, _, w1) => (some ("failed to stop tunnel: " ++ e), m, w1)
      | (none, _, w1) =>
          let w2 := unregisterDomain domain w1
          (none, { m with tunnels := eraseKV m.tunnels domain }, w2)

/-- The loop of `Manager.Stop` over the collection: stop each tunnel,
collecting the failures and continuing. -/
def stopTunnelsLoop (env : Env) :
    List (String × GTunnel) → World → List String × World
  | [], w => ([], w)
  | (d, t) :: rest, w =>
      match tunnelStop env t w with
      | (some e, _, w1) =>
          let r := stopTunnelsLoop env rest w1
          (("failed to stop tunnel " ++ d ++ ": " ++ e) :: r.1, r.2)
      | (none, _, w1) => stopTunnelsLoop env rest w1

/-- `Manager.Stop` (tunnel.go): stop every tunnel best-effort, clear the
collection, then restore the hosts file from the backup.  The returned list
is the `errs` slice the source folds into one combined error (empty list
models a `nil` error). -/
def ManagerStop (env : Env) (m : TManager) (w : World) :
    List String × TManager × World :=
  let r := stopTunnelsLoop env m.tunnels w
  let m1 : TManager := { m with tunnels := [] }
  match restoreHostsFile m.hostsBackup r.2 with
  | (some e, w2) => (r.1 ++ ["failed to restore hosts file: " ++ e], m1, w2)
  | (none, w2) => (r.1, m1, w2)

/-- Outcome of a `StopAll` call: either the call returns (with the Go error
result and the final state), or it never returns. -/
inductive StopAllOutcome where
  | deadlock
  | done (err : Option String) (m : TManager) (w : World)
deriving DecidableEq

/-- `Manager.StopAll` (tunnel.go lines 371–386): acquires `m.mu` and then,
still holding it, calls `m.StopTunnel` for each domain — but `StopTunnel`
begins by acquiring the same non-reentrant mutex.  On a non-empty
collection the very first iteration therefore self-deadlocks, before any
observable effect (the lock acquisition is `StopTunnel`'s first statement);
`StopAll` never returns and the state is untouched.  On an empty collection
the loop body never runs: the (empty) map is cleared and `nil` is returned.
No hosts-file restoration exists on this path in either case. -/
def StopAll (m : TManager) (w : World) : StopAllOutcome :=
  match m.tunnels with
  | [] => .done none { m with tunnels := [] } w
  | _ :: _ => .deadlock

/-- One entry of the `ListTunnels` result. -/
structure TunnelInfo where
  domain : String
  port : Int
  https : Bool
deriving DecidableEq

/-- `Manager.ListTunnels`: a snapshot of domain, backend port and HTTPS flag
for every tunnel in the collection. -/
def ListTunnels (m : TManager) : List TunnelInfo :=
  m.tunnels.map (fun p => ⟨p.1, p.2.Port, p.2.HTTPS⟩)

/-- The `tunnel.Tunnel` record of the part_017 variant: backend port plus
separate HTTP/HTTPS listen ports. -/
structure PTunnel where
  Port : Int
  HTTPPort : Int
  HTTPSPort : Int
  Domain : String
  HTTPS : Bool
  serverSet : Bool
  listenerSet : Bool
deriving DecidableEq

/-- The `tunnel.Manager` record of the part_017 variant: tunnel collection,
hosts backup path, proxy mode flag and the proxy manager's route table. -/
structure PManager where
  tunnels : List (String × PTunnel)
  hostsBackup : String
  useProxy : Bool
  proxyRoutes : RouteTable
deriving DecidableEq

/-- The port the part_017 tunnel listener binds: `HTTPSPort` for TLS, else
`HTTPPort`. -/
def pListenPortOf (t : PTunnel) : Int :=
  if t.HTTPS then t.HTTPSPort else t.HTTPPort

/-- `Manager.startTunnel` (part_017): hosts update (skipped in proxy mode),
mDNS registration — a failure here aborts, leaving the hosts entry — then
the listener bind on the tunnel listen port, whose failure leaves both the
hosts entry and the registration in place. -/
def p17startTunnel (env : Env) (useProxy : Bool) (t : PTunnel) (w : World) :
    Option String × PTunnel × World :=
  let w1 := if useProxy then w else updateHostsFile t.Domain w
  if !env.mdnsOk then (some "failed to register domain", t, w1)
  else
    let w2 := registerDomain t.Domain w1
    let t1 := { t with serverSet := true }
    if w2.openPorts.contains (pListenPortOf t) || !env.listenOk then
      (some (if t.HTTPS then "failed to create HTTPS listener"
             else "failed to create HTTP listener"), t1, w2)
    else
      (none, { t1 with listenerSet := true },
        { w2 with openPorts := pListenPortOf t :: w2.openPorts })

/-- `Manager.startTunnelInternal` (part_017): port and domain validation
(invalid input fails before any effect), duplicate check on the raw domain
argument (before the `.local` normalization), proxy-mode reallocation of the
listen ports, normalization, certificate provisioning for HTTPS,
`startTunnel`, insertion under the normalized domain, proxy-route
registration in proxy mode, and the first-tunnel hosts backup in dedicated
mode. -/
def startTunnelInternal (env : Env) (m : PManager) (w : World)
    (backendPort : Int) (domain0 : String) (https : Bool)
    (httpPort httpsPort : Int) : Option String × PManager × World :=
  if backendPort ≤ 0 ∨ backendPort > 65535 then
    (some "invalid backend port", m, w)
  else if domain0 = "" then
    (some "domain cannot be empty", m, w)
  else if httpPort ≤ 0 ∨ httpPort > 65535 then
    (some "invalid HTTP port", m, w)
  else if httpsPort ≤ 0 ∨ httpsPort > 65535 then
    (some "invalid HTTPS port", m, w)
  else if (lookupKV m.tunnels domain0).isSome then
    (some ("tunnel for domain " ++ domain0 ++ " already exists"), m, w)
  else
    let tunnelHTTPPort : Int :=
      if m.useProxy then 9080 + (m.tunnels.length : Int) else httpPort
    let tunnelHTTPSPort : Int :=
      if m.useProxy then 9443 + (m.tunnels.length : Int) else httpsPort
    let domain := normalizeLocal domain0
    let t : PTunnel :=
      ⟨backendPort, tunnelHTTPPort, tunnelHTTPSPort, domain, https,
        false, false⟩
    if https && !env.certOk then
      (some "failed to ensure certificate", m, w)
    else
      let w0 := if https then
          { w with certEnsured := domain :: w.certEnsured } else w
      match p17startTunnel env m.useProxy t w0 with
      | (some e, _, w1) => (some ("failed to start tunnel: " ++ e), m, w1)
      | (none, t1, w1) =>
          let m1 : PManager :=
            { m with tunnels := insertKV m.tunnels domain t1 }
          let m2 : PManager :=
            if m.useProxy then
              { m1 with proxyRoutes := (AddRoute m1.proxyRoutes
                  ⟨domain, "127.0.0.1", tunnelHTTPPort, https⟩).1 }
            else m1
          if !m.useProxy && m2.tunnels.length == 1 then
            match backupHostsFile m2.hostsBackup w1 with
            | (some e, w2) =>
                (some ("failed to backup hosts file: " ++ e), m2, w2)
            | (none, w2) => (none, m2, w2)
          else (none, m2, w1)

/-! ### Helper lemmas for the tunnel-manager proofs -/

theorem lookupKV_none_forall {α : Type} (m : List (String × α)) (k : String)
    (h : lookupKV m k = none) : ∀ p ∈ m, p.1 ≠ k := by
  induction m with
  | nil => intro p hp; cases hp
  | cons q rest ih =>
    intro p hp
    by_cases hq : q.1 = k
    · rw [lookupKV, if_pos hq] at h; cases h
    · rw [lookupKV, if_neg hq] at h
      cases hp with
      | head => exact hq
      | tail _ hmem => exact ih h p hmem

theorem filter_ne_of_contains_false {α : Type} [DecidableEq α]
    (l : List α) (a : α) (h : l.contains a = false) :
    l.filter (fun q => q ≠ a) = l := by
  rw [List.filter_eq_self]
  intro x hx
  simp only [decide_eq_true_eq]
  intro he
  subst he
  rw [List.contains_eq_any_beq] at h
  rw [List.any_eq_false] at h
  exact absurd (by simp) (h x hx)

theorem containsStr_append_self (a s : String) :
    containsStr (a ++ s) s = true := by
  apply decide_eq_true
  refine ⟨a.data, [], ?_⟩
  simp [String.data_append]

theorem normalizeLocal_data_ne_nil (s : String) :
    (normalizeLocal s).data ≠ [] := by
  rw [normalizeLocal]
  by_cases h : hasSuffixStr s ".local"
  · rw [if_pos h]
    have hs : (".local" : String).data <:+ s.data := of_decide_eq_true h
    intro he
    rw [he] at hs
    have := List.eq_nil_of_suffix_nil hs
    simp at this
  · rw [if_neg h]
    intro he
    rw [String.data_append] at he
    simp at he

theorem containsStr_empty_normalizeLocal (s : String) :
    containsStr "" (normalizeLocal s) = false := by
  apply decide_eq_false
  intro hinf
  exact normalizeLocal_data_ne_nil s (List.infix_nil.mp hinf)

/-! ### Concrete scenarios shared by the tunnel-manager claims -/

/-- An environment where every external call succeeds. -/
def envAll : Env := ⟨true, true, true, true⟩

/-- A small initial world: a one-line hosts file, no files, no
registrations, no open ports. -/
def worldInit : World := ⟨["127.0.0.1 localhost"], [], [], [], []⟩

/-- First Start of the duplicate scenario: `Start("app", …)` on an empty
dedicated-mode manager. -/
def c1Run1 : Option String × PManager × World :=
  startTunnelInternal envAll ⟨[], "hosts.backup", false, []⟩ worldInit
    3000 "app" false 8080 8443

/-- Second Start of the duplicate scenario: `Start("app", …)` again — the
unsuffixed form of the already-running `app.local` — with a different
backend and listen port. -/
def c1Run2 : Option String × PManager × World :=
  startTunnelInternal envAll c1Run1.2.1 c1Run1.2.2 3001 "app" false
    8081 8443

/-- C1 counterexample: the first `Start("app", …)` succeeds and stores the
tunnel under `app.local`; the second `Start("app", …)` — the unsuffixed
form of the same normalized domain — is not rejected (it returns no error)
and replaces the stored entry, because the duplicate check compares the raw
argument `"app"` against the normalized keys. -/
theorem claim_C1_counterexample :
    c1Run1.1 = none ∧
    (lookupKV c1Run1.2.1.tunnels "app.local").isSome = true ∧
    c1Run2.1 = none ∧
    lookupKV c1Run2.2.1.tunnels "app.local"
      ≠ lookupKV c1Run1.2.1.tunnels "app.local" := by
  refine ⟨rfl, rfl, rfl, ?_⟩
  decide

/-- C1 (amended): the duplicate check compares the raw Start argument with
the stored (normalized) keys, so a second Start that passes the stored
`.local`-suffixed form fails with the duplicate error and leaves the
manager and the world unchanged; a second Start passing the unsuffixed form
of an existing normalized domain is not rejected. -/
theorem claim_C1_duplicate_raw_domain (env : Env) (m : PManager) (w : World)
    (backendPort : Int) (domain0 : String) (https : Bool)
    (httpPort httpsPort : Int)
    (h1 : 1 ≤ backendPort) (h2 : backendPort ≤ 65535)
    (h3 : domain0 ≠ "") (h4 : 1 ≤ httpPort) (h5 : httpPort ≤ 65535)
    (h6 : 1 ≤ httpsPort) (h7 : httpsPort ≤ 65535)
    (hdup : (lookupKV m.tunnels domain0).isSome = true) :
    startTunnelInternal env m w backendPort domain0 https httpPort httpsPort
      = (some ("tunnel for domain " ++ domain0 ++ " already exists"),
         m, w) := by
  rw [startTunnelInternal]
  rw [if_neg (by omega)]
  rw [if_neg h3]
  rw [if_neg (by omega)]
  rw [if_neg (by omega)]
  rw [if_pos hdup]

/-- Witness for the amended C1: a second Start passing `app.local` while a
tunnel for `app.local` is running is rejected with no changes. -/
theorem claim_C1_duplicate_raw_domain_witness :
    startTunnelInternal envAll
      ⟨[("app.local", ⟨3000, 8080, 8443, "app.local", false, true, true⟩)],
        "hosts.backup", false, []⟩ worldInit 3000 "app.local" false
      8080 8443
      = (some ("tunnel for domain " ++ "app.local" ++ " already exists"),
         ⟨[("app.local", ⟨3000, 8080, 8443, "app.local", false, true,
             true⟩)], "hosts.backup", false, []⟩, worldInit) :=
  claim_C1_duplicate_raw_domain envAll _ worldInit 3000 "app.local" false
    8080 8443 (by decide) (by decide) (by decide) (by decide) (by decide)
    (by decide) (by decide) (by decide)

/-- C3: an invalid Start call — empty domain, or any of the backend, HTTP
or HTTPS ports outside 1–65535 — fails at validation before any side
effect: the manager and the world come back unchanged, so no listener was
bound, no certificate ensured or written, and no hosts entry, proxy route or
mDNS registration was made. -/
theorem claim_C3_validation_no_side_effects (env : Env) (m : PManager)
    (w : World) (backendPort : Int) (domain0 : String) (https : Bool)
    (httpPort httpsPort : Int)
    (h : domain0 = "" ∨ backendPort ≤ 0 ∨ backendPort > 65535 ∨
         httpPort ≤ 0 ∨ httpPort > 65535 ∨
         httpsPort ≤ 0 ∨ httpsPort > 65535) :
    ∃ e, startTunnelInternal env m w backendPort domain0 https httpPort
      httpsPort = (some e, m, w) := by
  rw [startTunnelInternal]
  by_cases hbp : backendPort ≤ 0 ∨ backendPort > 65535
  · exact ⟨"invalid backend port", by rw [if_pos hbp]⟩
  · rw [if_neg hbp]
    by_cases hd : domain0 = ""
    · exact ⟨"domain cannot be empty", by rw [if_pos hd]⟩
    · rw [if_neg hd]
      by_cases hhp : httpPort ≤ 0 ∨ httpPort > 65535
      · exact ⟨"invalid HTTP port", by rw [if_pos hhp]⟩
      · rw [if_neg hhp]
        by_cases hhsp : httpsPort ≤ 0 ∨ httpsPort > 65535
        · exact ⟨"invalid HTTPS port", by rw [if_pos hhsp]⟩
        · exfalso
          rcases h with h | h | h | h | h | h | h
          · exact hd h
          · exact hbp (Or.inl h)
          · exact hbp (Or.inr h)
          · exact hhp (Or.inl h)
          · exact hhp (Or.inr h)
          · exact hhsp (Or.inl h)
          · exact hhsp (Or.inr h)

/-- The mDNS-failure scenario for C2: an empty manager, a one-line hosts
file, a plain-HTTP Start for `app` whose mDNS registration fails. -/
def c2Run : Option String × TManager × World :=
  StartTunnel ⟨true, true, false, true⟩ ⟨[], "bk"⟩ worldInit 3000 "app"
    false 443

/-- C2 counterexample: when mDNS registration fails after the listener was
bound and the hosts entry written, Start does return an error, the listener
is closed (by the rollback's graceful shutdown) and the collection shows no
entry — but the hosts entry is NOT undone: the rollback's `Tunnel.stop`
aborts at the explicit `listener.Close()` (which fails with `ErrClosed`
because `Shutdown` already closed the listener) before ever reaching
`removeFromHostsFile`, so the `127.0.0.1  app.local` line survives,
refuting the claim's "the hosts entry is undone". -/
theorem claim_C2_counterexample :
    (c2Run.1).isSome = true ∧
    c2Run.2.2.openPorts = [] ∧
    c2Run.2.1.tunnels = [] ∧
    c2Run.2.2.hosts
      = ["127.0.0.1 localhost", "", "127.0.0.1\tapp.local"] ∧
    (c2Run.2.2.hosts.any
      (fun line => containsStr line "app.local")) = true := by decide

/-- C2 (amended): when mDNS registration is the step that fails during
`StartTunnel` — after the listener was bound and the hosts entry written —
Start returns an error (reporting the failed rollback: the listener
double-close), the listener is closed (the rollback's graceful shutdown
closed it; the port set is back to its initial value), and the collection
is unchanged, so a subsequent List shows no entry for the domain; but the
hosts entry written during the attempt is NOT undone — the rollback aborts
before the hosts-entry removal.  The environment fixes the scenario: bind
succeeds, registration fails, the caller's context has not expired. -/
theorem claim_C2_mdns_partial_rollback (certOk : Bool) (m : TManager)
    (w : World) (port : Int) (domain0 : String) (https : Bool)
    (httpsPort : Int)
    (hcert : https = true → certOk = true)
    (hdup0 : lookupKV m.tunnels domain0 = none)
    (hdupn : lookupKV m.tunnels (normalizeLocal domain0) = none)
    (hhosts : ∀ line ∈ w.hosts,
      containsStr line (normalizeLocal domain0) = false)
    (hport : w.openPorts.contains (if https then httpsPort else port)
      = false) :
    (StartTunnel ⟨certOk, true, false, true⟩ m w port domain0 https
        httpsPort).1
      = some "failed to stop tunnel after mDNS registration failed: error closing listener: use of closed network connection" ∧
    (StartTunnel ⟨certOk, true, false, true⟩ m w port domain0 https
        httpsPort).2.1 = m ∧
    (StartTunnel ⟨certOk, true, false, true⟩ m w port domain0 https
        httpsPort).2.2.openPorts = w.openPorts ∧
    (StartTunnel ⟨certOk, true, false, true⟩ m w port domain0 https
        httpsPort).2.2.mdns = w.mdns ∧
    (StartTunnel ⟨certOk, true, false, true⟩ m w port domain0 https
        httpsPort).2.2.hosts
      = w.hosts ++ ["", "127.0.0.1\t" ++ normalizeLocal domain0] ∧
    ((StartTunnel ⟨certOk, true, false, true⟩ m w port domain0 https
        httpsPort).2.2.hosts.any
      (fun line => containsStr line (normalizeLocal domain0))) = true ∧
    (∀ info ∈ ListTunnels (StartTunnel ⟨certOk, true, false, true⟩ m w
        port domain0 https httpsPort).2.1,
      info.domain ≠ normalizeLocal domain0) := by
  have hany : (w.hosts.any
      (fun line => containsStr line (normalizeLocal domain0))) = false :=
    List.any_eq_false.mpr (fun x hx => by rw [hhosts x hx]; exact
      Bool.false_ne_true)
  have hrun : StartTunnel ⟨certOk, true, false, true⟩ m w port domain0
      https httpsPort
      = (some ("failed to stop tunnel after mDNS registration failed: "
           ++ "error closing listener: use of closed network connection"),
         m,
         ⟨w.hosts ++ ["", "127.0.0.1\t" ++ normalizeLocal domain0],
          w.files, w.mdns, w.openPorts,
          if https then normalizeLocal domain0 :: w.certEnsured
          else w.certEnsured⟩) := by
    cases https with
    | true =>
        have hco : certOk = true := hcert rfl
        subst hco
        have hport' : w.openPorts.contains httpsPort = false := by
          rw [show ((if true then httpsPort else port) : Int) = httpsPort
            from rfl] at hport
          exact hport
        have hfilterP : ((httpsPort :: w.openPorts).filter
            (fun q => q ≠ httpsPort)) = w.openPorts := by
          rw [show ((httpsPort : Int) :: w.openPorts).filter
              (fun q => q ≠ httpsPort)
              = w.openPorts.filter (fun q => q ≠ httpsPort) by simp]
          exact filter_ne_of_contains_false _ _ hport'
        simp only [StartTunnel, managerStartTunnel, tunnelStop,
          updateHostsFile, removeFromHostsFile, closePort, listenPortOf,
          hdup0, Option.isSome_none, Bool.false_eq_true, if_false,
          Bool.and_false, Bool.and_true, Bool.false_and, Bool.true_and,
          Bool.not_true, Bool.not_false,
          Bool.or_false, Bool.false_or, Bool.or_true, Bool.true_or,
          if_true, hany, hport', hfilterP]
    | false =>
        have hport' : w.openPorts.contains port = false := by
          rw [show ((if false then httpsPort else port) : Int) = port
            from rfl] at hport
          exact hport
        have hfilterP : ((port :: w.openPorts).filter
            (fun q => q ≠ port)) = w.openPorts := by
          rw [show ((port : Int) :: w.openPorts).filter (fun q => q ≠ port)
              = w.openPorts.filter (fun q => q ≠ port) by simp]
          exact filter_ne_of_contains_false _ _ hport'
        simp only [StartTunnel, managerStartTunnel, tunnelStop,
          updateHostsFile, removeFromHostsFile, closePort, listenPortOf,
          hdup0, Option.isSome_none, Bool.false_eq_true, if_false,
          Bool.and_false, Bool.and_true, Bool.false_and, Bool.true_and,
          Bool.not_true, Bool.not_false,
          Bool.or_false, Bool.false_or, Bool.or_true, Bool.true_or,
          if_true, hany, hport', hfilterP]
  rw [hrun]
  refine ⟨rfl, rfl, rfl, rfl, rfl, ?_, ?_⟩
  · refine List.any_eq_true.mpr
      ⟨"127.0.0.1\t" ++ normalizeLocal domain0, ?_,
        containsStr_append_self _ _⟩
    simp
  · intro info hinfo
    rcases List.mem_map.mp hinfo with ⟨p, hp, rfl⟩
    exact lookupKV_none_forall m.tunnels (normalizeLocal domain0) hdupn p hp

/-- Witness for the amended C2 at the scenario of the counterexample. -/
theorem claim_C2_mdns_partial_rollback_witness :
    (StartTunnel ⟨true, true, false, true⟩ ⟨[], "bk"⟩ worldInit 3000 "app"
        false 443).1
      = some "failed to stop tunnel after mDNS registration failed: error closing listener: use of closed network connection" ∧
    (StartTunnel ⟨true, true, false, true⟩ ⟨[], "bk"⟩ worldInit 3000 "app"
        false 443).2.1 = ⟨[], "bk"⟩ ∧
    (StartTunnel ⟨true, true, false, true⟩ ⟨[], "bk"⟩ worldInit 3000 "app"
        false 443).2.2.openPorts = worldInit.openPorts ∧
    (StartTunnel ⟨true, true, false, true⟩ ⟨[], "bk"⟩ worldInit 3000 "app"
        false 443).2.2.mdns = worldInit.mdns ∧
    (StartTunnel ⟨true, true, false, true⟩ ⟨[], "bk"⟩ worldInit 3000 "app"
        false 443).2.2.hosts
      = worldInit.hosts ++ ["", "127.0.0.1\t" ++ normalizeLocal "app"] ∧
    ((StartTunnel ⟨true, true, false, true⟩ ⟨[], "bk"⟩ worldInit 3000 "app"
        false 443).2.2.hosts.any
      (fun line => containsStr line (normalizeLocal "app"))) = true ∧
    (∀ info ∈ ListTunnels (StartTunnel ⟨true, true, false, true⟩ ⟨[], "bk"⟩
        worldInit 3000 "app" false 443).2.1,
      info.domain ≠ normalizeLocal "app") :=
  claim_C2_mdns_partial_rollback true ⟨[], "bk"⟩ worldInit 3000 "app"
    false 443 (fun _ => rfl) (by decide) (by decide) (by decide)
    (by decide)

/-- Witness for C3: `Start(domain="")` and `Start(backendPort=-1)` both
fail with the manager and world unchanged. -/
theorem claim_C3_validation_no_side_effects_witness :
    (∃ e, startTunnelInternal envAll ⟨[], "hosts.backup", false, []⟩
      worldInit 3000 "" false 8080 8443
      = (some e, ⟨[], "hosts.backup", false, []⟩, worldInit)) ∧
    (∃ e, startTunnelInternal envAll ⟨[], "hosts.backup", false, []⟩
      worldInit (-1) "app" false 8080 8443
      = (some e, ⟨[], "hosts.backup", false, []⟩, worldInit)) :=
  ⟨claim_C3_validation_no_side_effects envAll _ worldInit 3000 "" false
      8080 8443 (Or.inl rfl),
   claim_C3_validation_no_side_effects envAll _ worldInit (-1) "app" false
      8080 8443 (Or.inr (Or.inl (by decide)))⟩

theorem tunnelStop_files (env : Env) (t : GTunnel) (w : World) :
    (tunnelStop env t w).2.2.files = w.files := by
  rw [tunnelStop]
  by_cases h1 : t.serverSet = true
  · rw [if_pos h1]
    by_cases h2 : (!env.shutdownOk) = true
    · rw [if_pos h2]; rfl
    · rw [if_neg h2]
      by_cases h3 : t.listenerSet = true
      · rw [if_pos h3]; rfl
      · rw [if_neg h3]; rfl
  · rw [if_neg h1]
    by_cases h3 : t.listenerSet = true
    · rw [if_pos h3]; rfl
    · rw [if_neg h3]; rfl

theorem stopTunnelsLoop_files (env : Env)
    (l : List (String × GTunnel)) :
    ∀ w : World, (stopTunnelsLoop env l w).2.files = w.files := by
  induction l with
  | nil => intro w; rfl
  | cons p rest ih =>
      intro w
      obtain ⟨d, t⟩ := p
      have hpres := tunnelStop_files env t w
      rcases htup : tunnelStop env t w with ⟨e, t', w1⟩
      rw [htup] at hpres
      rw [stopTunnelsLoop, htup]
      cases e with
      | some e' =>
          show (stopTunnelsLoop env rest w1).2.files = w.files
          rw [ih w1]; exact hpres
      | none =>
          show (stopTunnelsLoop env rest w1).2.files = w.files
          rw [ih w1]; exact hpres

/-- First Start of the hosts-restoration scenario: one dedicated-mode
tunnel for `app` on the tunnel.go manager, with backup path `bk`. -/
def c4Run1 : Option String × TManager × World :=
  StartTunnel envAll ⟨[], "bk"⟩ worldInit 3000 "app" false 443

/-- C4 counterexample: after one Start, `StopAll` never reaches a state in
which the hosts file could have been restored or the backup discarded — it
self-deadlocks on the manager mutex at its first `StopTunnel` call, before
any observable effect.  At the point of the hang the hosts file (untouched
by the deadlocked call) still differs from its pre-Start content and the
backup file still exists, so "after StopAll() the hosts file is
byte-identical to its pre-Start content and the backup token is discarded"
holds of no execution. -/
theorem claim_C4_counterexample :
    c4Run1.1 = none ∧
    StopAll c4Run1.2.1 c4Run1.2.2 = .deadlock ∧
    c4Run1.2.2.hosts ≠ worldInit.hosts ∧
    (lookupKV c4Run1.2.2.files "bk").isSome = true := by decide

/-- C4 (amended): `StopAll` restores nothing: on a non-empty collection it
self-deadlocks (its `StopTunnel` call re-acquires the mutex `StopAll`
already holds) before any cleanup, leaving hosts file, backup and
collection untouched.  The hosts file is restored only by `Manager.Stop`,
which — when the backup file exists — rewrites the hosts file with the
backup content (captured during the first Start, after that Start's own
hosts modification, so it includes that Start's entry rather than the
pre-first-Start bytes), removes the backup file, and clears the
collection. -/
theorem claim_C4_stop_restores_hosts (env : Env) (m : TManager) (w : World)
    (content : List String)
    (hne : m.tunnels ≠ [])
    (hb : m.hostsBackup ≠ "")
    (hf : lookupKV w.files m.hostsBackup = some content) :
    StopAll m w = .deadlock ∧
    (ManagerStop env m w).2.2.hosts = content ∧
    lookupKV (ManagerStop env m w).2.2.files m.hostsBackup = none ∧
    (ManagerStop env m w).2.1.tunnels = [] := by
  refine ⟨?_, ?_⟩
  · rw [StopAll]
    cases hm : m.tunnels with
    | nil => exact absurd hm hne
    | cons p rest => rfl
  · have hfiles := stopTunnelsLoop_files env m.tunnels w
    rw [ManagerStop, restoreHostsFile, if_neg hb]
    rw [show lookupKV (stopTunnelsLoop env m.tunnels w).2.files
        m.hostsBackup = some content from by rw [hfiles]; exact hf]
    exact ⟨rfl, lookupKV_eraseKV_self _ _, rfl⟩

/-- Witness for the amended C4: after the Start of the counterexample
scenario, `StopAll` deadlocks while `Manager.Stop` restores the backup
content and removes `bk`. -/
theorem claim_C4_stop_restores_hosts_witness :
    StopAll c4Run1.2.1 c4Run1.2.2 = .deadlock ∧
    (ManagerStop envAll c4Run1.2.1 c4Run1.2.2).2.2.hosts
      = ["127.0.0.1 localhost", "", "127.0.0.1\tapp.local"] ∧
    lookupKV (ManagerStop envAll c4Run1.2.1 c4Run1.2.2).2.2.files
      c4Run1.2.1.hostsBackup = none ∧
    (ManagerStop envAll c4Run1.2.1 c4Run1.2.2).2.1.tunnels = [] :=
  claim_C4_stop_restores_hosts envAll c4Run1.2.1 c4Run1.2.2
    ["127.0.0.1 localhost", "", "127.0.0.1\tapp.local"]
    (by decide) (by decide) (by decide)

/-- The running tunnel of the teardown-failure scenario. -/
def c9Tunnel : GTunnel := ⟨3000, 443, "app.local", false, true, true⟩

/-- Its manager: one running tunnel, backup path `bk`. -/
def c9Manager : TManager := ⟨[("app.local", c9Tunnel)], "bk"⟩

/-- Its world: hosts entry present, backup file present, domain registered
with mDNS, listener port open. -/
def c9World : World :=
  ⟨["127.0.0.1 localhost", "", "127.0.0.1\tapp.local"],
   [("bk", ["127.0.0.1 localhost"])], ["app.local"], [3000], []⟩

/-- The `StopTunnel` call whose graceful shutdown fails. -/
def c9Run : Option String × TManager × World :=
  StopTunnel ⟨true, true, true, false⟩ c9Manager c9World "app.local"

/-- C9 counterexample: when the graceful shutdown step of `Stop(domain)`
fails, the remaining cleanup steps are abandoned, not attempted: the error
of the first failing step is returned alone, the tunnel stays in the
collection, the mDNS registration stays, and the hosts entry stays. -/
theorem claim_C9_counterexample :
    c9Run.1 = some "failed to stop tunnel: error shutting down server" ∧
    c9Run.2.1 = c9Manager ∧
    c9Run.2.2.mdns = c9World.mdns ∧
    c9Run.2.2.hosts = c9World.hosts := by decide

/-- C9 (amended): `StopTunnel` teardown is abort-on-first-failure, not
best-effort aggregation: when the tunnel's graceful shutdown fails, the
call returns only that error, and the mDNS unregistration, the hosts-entry
removal and the removal from the collection are all left undone (only the
listener is closed, by the failed `Shutdown` itself); the
collect-and-continue behaviour exists only in `Manager.Stop`. -/
theorem claim_C9_stop_abort_on_failure (env : Env) (m : TManager)
    (w : World) (domain : String) (t : GTunnel)
    (hl : lookupKV m.tunnels domain = some t)
    (hs : t.serverSet = true) (hsd : env.shutdownOk = false) :
    StopTunnel env m w domain
      = (some "failed to stop tunnel: error shutting down server", m,
         closePort (listenPortOf t) w) := by
  have htstop : tunnelStop env t w
      = (some "error shutting down server", t,
         closePort (listenPortOf t) w) := by
    rw [tunnelStop, if_pos hs, if_pos (by rw [hsd]; rfl)]
  simp only [StopTunnel, hl, htstop]
  rfl

/-- Witness for the amended C9 at the teardown-failure scenario. -/
theorem claim_C9_stop_abort_on_failure_witness :
    StopTunnel ⟨true, true, true, false⟩ c9Manager c9World "app.local"
      = (some "failed to stop tunnel: error shutting down server",
         c9Manager, closePort (listenPortOf c9Tunnel) c9World) :=
  claim_C9_stop_abort_on_failure ⟨true, true, true, false⟩ c9Manager
    c9World "app.local" c9Tunnel (by decide) (by decide) (by decide)

end GoTunnel
